import Mathlib

/-!
Verification of the job-orchestrator repository: a shallow embedding of its
persisted schema (SQL migrations), its operator-UI helpers (React components),
its API client, and its smoke-test expectations, together with theorems
checking the natural-language specification against them.

Strings stand for the SQL/JS string values; machine integers are `Nat`/`Int`;
JavaScript values that can be `null`/`undefined` are `Option`; host primitives
(`fetch` responses, `JSON.parse`, `Number`) enter as explicit data or function
parameters.
-/

namespace Orchestrator

/-! ## UI status helpers

From `services/ui/src/components/ViewCreate.jsx` and
`services/ui/src/components/JobTable.jsx`. -/

/-- `isTerminal` from `ViewCreate.jsx`:
`status === "done" || status === "failed" || status === "cancelled"`. -/
def isTerminal (status : String) : Bool :=
  status == "done" || status == "failed" || status == "cancelled"

/-- `badgeClass` from `JobTable.jsx`: the `switch (status)` mapping statuses to
CSS badge classes, with default `"badge"`. -/
def badgeClass (status : String) : String :=
  if status == "running" then "badge running"
  else if status == "pending" then "badge pending"
  else if status == "done" then "badge done"
  else if status == "failed" then "badge failed"
  else if status == "cancelled" then "badge cancelled"
  else "badge"

/-- The spec's job-status domain (§3): the six values a job `status` ranges
over. Stated from the spec's words, for comparison with the UI code. -/
def specStatusDomain : List String :=
  ["pending", "running", "paused", "done", "failed", "cancelled"]

/-- The spec's terminal statuses (glossary): `done`, `failed`, `cancelled`. -/
def specTerminalStatuses : List String :=
  ["done", "failed", "cancelled"]

/-! ## Action enablement in the operator UI

`JobTable.jsx` renders per-row Cancel/Retry buttons with
`disabled={j.status !== "running" && j.status !== "pending"}` and
`disabled={j.status !== "failed" && j.status !== "cancelled"}`;
`JobDrawer.jsx` renders the same two buttons with the same conditions on
`data.status`. -/

/-- `disabled` condition of the Cancel button in `JobTable.jsx`. -/
def jobTableCancelDisabled (status : String) : Bool :=
  status != "running" && status != "pending"

/-- `disabled` condition of the Retry button in `JobTable.jsx`. -/
def jobTableRetryDisabled (status : String) : Bool :=
  status != "failed" && status != "cancelled"

/-- `disabled` condition of the Cancel button in `JobDrawer.jsx`. -/
def jobDrawerCancelDisabled (status : String) : Bool :=
  status != "running" && status != "pending"

/-- `disabled` condition of the Retry button in `JobDrawer.jsx`. -/
def jobDrawerRetryDisabled (status : String) : Bool :=
  status != "failed" && status != "cancelled"

/-! ## Jobs-list response shapes

`JobTable.jsx`: `const rows = Array.isArray(data) ? data : (data?.jobs ?? []);`.
The JS value `data` is either an array, an object (whose `jobs` property may be
absent), `null`/`undefined`, or some other primitive; optional chaining on a
non-object yields `undefined`, and `?? []` replaces `null`/`undefined`. -/

/-- The shapes the polled `GET /training/jobs` response value can take, as seen
by `JobTable.jsx` (`α` is the type of one job row). -/
inductive JsResponse (α : Type) where
  | jsArray (l : List α)
  | jsObject (jobsField : Option (List α))
  | jsNull
  | jsOther
deriving DecidableEq

/-- `rows` from `JobTable.jsx`: `Array.isArray(data) ? data : (data?.jobs ?? [])`. -/
def jobTableRows {α : Type} : JsResponse α → List α
  | .jsArray l => l
  | .jsObject (some l) => l
  | .jsObject none => []
  | .jsNull => []
  | .jsOther => []

end Orchestrator

namespace Orchestrator

/-! ## Theorems: C4, C6, C7 -/

/-- **C4.** A job status is terminal exactly on {done, failed, cancelled}:
`isTerminal s = true ↔ s ∈ specTerminalStatuses`; every status the UI's
`badgeClass` distinguishes from the default badge lies in the spec's six-value
status domain; and the terminal statuses are inside that domain. -/
theorem isTerminal_iff_and_badgeClass_domain :
    (∀ s : String, isTerminal s = true ↔ s ∈ specTerminalStatuses) ∧
    (∀ s : String, badgeClass s = "badge" ∨ s ∈ specStatusDomain) ∧
    (∀ s ∈ specTerminalStatuses, s ∈ specStatusDomain) := by
  refine ⟨fun s => ?_, fun s => ?_, by decide⟩
  · simp [isTerminal, specTerminalStatuses, beq_iff_eq]
    tauto
  · by_cases h1 : s = "running"
    · exact Or.inr (by simp [specStatusDomain, h1])
    by_cases h2 : s = "pending"
    · exact Or.inr (by simp [specStatusDomain, h2])
    by_cases h3 : s = "done"
    · exact Or.inr (by simp [specStatusDomain, h3])
    by_cases h4 : s = "failed"
    · exact Or.inr (by simp [specStatusDomain, h4])
    by_cases h5 : s = "cancelled"
    · exact Or.inr (by simp [specStatusDomain, h5])
    exact Or.inl (by simp [badgeClass, h1, h2, h3, h4, h5])

/-- Witness for C4 at the concrete status `"done"`: it is terminal and lies
in the spec's status domain. -/
theorem isTerminal_iff_and_badgeClass_domain_witness :
    isTerminal "done" = true ∧ "done" ∈ specStatusDomain :=
  ⟨(isTerminal_iff_and_badgeClass_domain.1 "done").mpr (by decide),
   isTerminal_iff_and_badgeClass_domain.2.2 "done" (by decide)⟩

/-- **C6.** In both the job table and the job drawer, Cancel is enabled (not
disabled) exactly when the status is `pending` or `running`, and Retry exactly
when it is `failed` or `cancelled`. -/
theorem cancel_retry_enabled_iff :
    ∀ s : String,
      (jobTableCancelDisabled s = false ↔ (s = "pending" ∨ s = "running")) ∧
      (jobDrawerCancelDisabled s = false ↔ (s = "pending" ∨ s = "running")) ∧
      (jobTableRetryDisabled s = false ↔ (s = "failed" ∨ s = "cancelled")) ∧
      (jobDrawerRetryDisabled s = false ↔ (s = "failed" ∨ s = "cancelled")) := by
  intro s
  refine ⟨?_, ?_, ?_, ?_⟩ <;>
    simp [jobTableCancelDisabled, jobDrawerCancelDisabled, jobTableRetryDisabled,
      jobDrawerRetryDisabled, beq_iff_eq, not_and_or] <;>
    tauto

/-- **C7.** `JobTable` derives the same row list from the bare array shape and
the `{jobs: …}` wrapper shape, and the empty list from every other shape. -/
theorem jobTableRows_shapes :
    ∀ (α : Type) (A : List α),
      jobTableRows (JsResponse.jsArray A) = A ∧
      jobTableRows (JsResponse.jsObject (some A)) = A ∧
      jobTableRows (JsResponse.jsArray A) = jobTableRows (JsResponse.jsObject (some A)) ∧
      jobTableRows (JsResponse.jsObject (none : Option (List α))) = [] ∧
      jobTableRows (JsResponse.jsNull (α := α)) = [] ∧
      jobTableRows (JsResponse.jsOther (α := α)) = [] := by
  intro α A
  exact ⟨rfl, rfl, rfl, rfl, rfl, rfl⟩

end Orchestrator

namespace Orchestrator

/-! ## Persisted schema: tables, column defaults, indexes

From the SQL migrations: the base `jobs`/`job_events` migration, the
`webhook_outbox` migration, the leases migration (`lease_owner`, `lease_until`,
`attempts`, `idx_jobs_claim`), `20241222000002_concurrency.sql`,
`20241222000003_priority.sql`, and `20241222000004_queues.sql`. -/

/-- One column of a SQL index: its name and whether it is ordered `DESC`. -/
structure IndexCol where
  col : String
  descOrder : Bool
deriving DecidableEq, Repr

/-- A SQL index as declared by `CREATE INDEX`: name, table, ordered column
list, and the optional `WHERE` predicate of a partial index. -/
structure SqlIndex where
  idxName : String
  tableName : String
  cols : List IndexCol
  whereClause : Option String
deriving DecidableEq, Repr

/-- `idx_jobs_status_created` from the base migration. -/
def idx_jobs_status_created : SqlIndex :=
  ⟨"idx_jobs_status_created", "jobs",
    [⟨"status", false⟩, ⟨"created_at", false⟩], none⟩

/-- `idx_job_events_job_id` from the base migration. -/
def idx_job_events_job_id : SqlIndex :=
  ⟨"idx_job_events_job_id", "job_events", [⟨"job_id", false⟩], none⟩

/-- `idx_webhook_outbox_due` from the outbox migration:
`ON webhook_outbox (next_attempt_at) WHERE delivered_at IS NULL`. -/
def idx_webhook_outbox_due : SqlIndex :=
  ⟨"idx_webhook_outbox_due", "webhook_outbox",
    [⟨"next_attempt_at", false⟩], some "delivered_at IS NULL"⟩

/-- `idx_webhook_outbox_locked` from the outbox migration. -/
def idx_webhook_outbox_locked : SqlIndex :=
  ⟨"idx_webhook_outbox_locked", "webhook_outbox",
    [⟨"locked_until", false⟩], some "delivered_at IS NULL"⟩

/-- `idx_workers_last_heartbeat` from the workers migration. -/
def idx_workers_last_heartbeat : SqlIndex :=
  ⟨"idx_workers_last_heartbeat", "workers", [⟨"last_heartbeat", false⟩], none⟩

/-- `idx_jobs_claim` from the leases migration:
`ON jobs (status, lease_until, created_at)`. -/
def idx_jobs_claim : SqlIndex :=
  ⟨"idx_jobs_claim", "jobs",
    [⟨"status", false⟩, ⟨"lease_until", false⟩, ⟨"created_at", false⟩], none⟩

/-- `idx_dataset_locks_lease_until` from `20241222000002_concurrency.sql`. -/
def idx_dataset_locks_lease_until : SqlIndex :=
  ⟨"idx_dataset_locks_lease_until", "dataset_locks", [⟨"lease_until", false⟩], none⟩

/-- `idx_jobs_status_attempts_created` from `20241222000002_concurrency.sql`. -/
def idx_jobs_status_attempts_created : SqlIndex :=
  ⟨"idx_jobs_status_attempts_created", "jobs",
    [⟨"status", false⟩, ⟨"attempts", false⟩, ⟨"created_at", false⟩], none⟩

/-- `idx_jobs_priority_status_created` from `20241222000003_priority.sql`:
`ON jobs (status, priority DESC, created_at ASC)`. -/
def idx_jobs_priority_status_created : SqlIndex :=
  ⟨"idx_jobs_priority_status_created", "jobs",
    [⟨"status", false⟩, ⟨"priority", true⟩, ⟨"created_at", false⟩], none⟩

/-- `idx_jobs_queue_status_priority_created` from `20241222000004_queues.sql`:
`ON jobs (queue, status, priority DESC, created_at)`. -/
def idx_jobs_queue_status_priority_created : SqlIndex :=
  ⟨"idx_jobs_queue_status_priority_created", "jobs",
    [⟨"queue", false⟩, ⟨"status", false⟩, ⟨"priority", true⟩, ⟨"created_at", false⟩],
    none⟩

/-- Every index the migrations create, in migration order. -/
def migrationIndexes : List SqlIndex :=
  [idx_jobs_status_created, idx_job_events_job_id,
   idx_webhook_outbox_due, idx_webhook_outbox_locked,
   idx_workers_last_heartbeat, idx_jobs_claim,
   idx_dataset_locks_lease_until, idx_jobs_status_attempts_created,
   idx_jobs_priority_status_created, idx_jobs_queue_status_priority_created]

/-! Column defaults of the `jobs` table, as accreted by the migrations:
`status TEXT NOT NULL DEFAULT 'pending'` (base migration),
`attempts INT NOT NULL DEFAULT 0` (leases migration),
`queue TEXT NOT NULL DEFAULT 'default'` (`20241222000004_queues.sql`). -/

/-- Schema default of `jobs.status`. -/
def jobsStatusDefault : String := "pending"

/-- Schema default of `jobs.attempts`. -/
def jobsAttemptsDefault : Nat := 0

/-- Schema default of `jobs.queue`. -/
def jobsQueueDefault : String := "default"

/-- A `jobs` row as the migrations define it (`α` is the opaque JSONB payload
type; timestamps are abstract `Nat`s). -/
structure JobRow (α : Type) where
  kind : String
  status : String
  queue : String
  priority : Int
  payload : α
  attempts : Nat
  lease_owner : Option String
  lease_until : Option Nat
  error : Option String

/-- Modelled from the spec: the missing submit handler behind
`POST /training/jobs` (§4.5 `submit`, §6 body `{kind, queue?, priority?,
payload}`). It inserts a row supplying `kind`, `payload`, the optional `queue`
and `priority`, and leaves `status` and `attempts` to the schema defaults; an
absent `queue` falls to the schema default, an absent `priority` to `0`. -/
def submitInsert {α : Type} (kind : String) (queue : Option String)
    (priority : Option Int) (payload : α) : JobRow α :=
  { kind := kind
    status := jobsStatusDefault
    queue := queue.getD jobsQueueDefault
    priority := priority.getD 0
    payload := payload
    attempts := jobsAttemptsDefault
    lease_owner := none
    lease_until := none
    error := none }

/-! ## UI API client

The `http` helper and `api` object of the UI (the fetch wrapper): it throws on
a non-ok response with a message built from status, statusText and body text,
and otherwise parses JSON only when the `content-type` header contains
`application/json`. A fetch `Response` is modelled by its observable parts. -/

/-- The parts of a fetch `Response` the `http` helper reads: `status`,
`statusText`, the `content-type` header (`none` when absent, in which case the
code substitutes `""`), and the body text. -/
structure HttpResponse where
  status : Nat
  statusText : String
  contentType : Option String
  bodyText : String

/-- `Response.ok` of fetch: status in the range 200–299. -/
def responseOk (r : HttpResponse) : Bool :=
  200 ≤ r.status && r.status < 300

/-- What `http` returns on success: `res.json()` (the body handed to the JSON
parser) or `res.text()` (the raw body). -/
inductive HttpResult where
  | json (raw : String)
  | text (raw : String)
deriving DecidableEq, Repr

/-- Whether `pat` is a prefix of `s`, on character lists. -/
def hasPrefixL : List Char → List Char → Bool
  | _, [] => true
  | [], _ :: _ => false
  | c :: cs, p :: ps => c == p && hasPrefixL cs ps

/-- Whether `pat` occurs as a contiguous substring of `s`, on character
lists. -/
def includesL (s pat : List Char) : Bool :=
  match s with
  | [] => hasPrefixL [] pat
  | _ :: cs => hasPrefixL s pat || includesL cs pat

/-- JS `String.prototype.includes`: substring containment. -/
def strIncludes (s pat : String) : Bool :=
  includesL s.data pat.data

/-- The `http` helper of the UI API client:
`if (!res.ok) throw new Error(res.status + " " + res.statusText + (text ? ": " + text : ""))`;
otherwise return `res.json()` when the `content-type` header contains
`"application/json"`, else `res.text()`. -/
def http (r : HttpResponse) : Except String HttpResult :=
  if responseOk r then
    let ct := r.contentType.getD ""
    if strIncludes ct "application/json" then Except.ok (HttpResult.json r.bodyText)
    else Except.ok (HttpResult.text r.bodyText)
  else
    Except.error (toString r.status ++ " " ++ r.statusText ++
      (if r.bodyText = "" then "" else ": " ++ r.bodyText))

/-! ## CreateJobModal submit

From the `CreateJobModal` component: `safeParseJson` wraps `JSON.parse` in
try/catch; `submit` refuses to post when the payload text failed to parse and
otherwise posts `{kind: kind.trim(), queue: queue.trim(),
priority: Number(priority) || 0, payload: parsed.value}`; the Create button is
`disabled={!canSubmit}` where `canSubmit` requires a non-empty trimmed kind and
queue, a parsed payload, and not already submitting. `JSON.parse` and `Number`
are host primitives and enter as their results: `parsed` is the
`{ok, value}/{ok, error}` outcome, and the `Number(priority)` conversion is an
`Option Int` (`none` for `NaN`). -/

/-- JS `String.prototype.trim`: strip whitespace from both ends. -/
def jsTrim (s : String) : String :=
  ⟨((s.data.dropWhile Char.isWhitespace).reverse.dropWhile Char.isWhitespace).reverse⟩

/-- Result of `safeParseJson`: `{ok: true, value}` or `{ok: false, error}`,
with `JSON.parse` supplied as a function parameter. -/
def safeParseJson {α : Type} (parse : String → Except String α) (text : String) :
    Except String α :=
  parse text

/-- `Number(priority) || 0` from `submit`: `NaN` (here `none`) falls to `0`;
`0` itself is falsy and also yields `0`, which coincides with `getD`. -/
def numberOr0 (n : Option Int) : Int :=
  n.getD 0

/-- The body `submit` posts to `api.postJob`. -/
structure PostedJob (α : Type) where
  kind : String
  queue : String
  priority : Int
  payload : α

/-- What a call to `submit` does: either set the error message and return
without posting, or call `api.postJob` with the built body. -/
inductive SubmitAction (α : Type) where
  | rejected (err : String)
  | posted (job : PostedJob α)

/-- `canSubmit` from `CreateJobModal`:
`kind.trim().length > 0 && (queue?.trim()?.length ?? 0) > 0 && parsed.ok && !submitting`. -/
def canSubmit {α : Type} (parsed : Except String α) (kind queue : String)
    (submitting : Bool) : Bool :=
  decide (0 < (jsTrim kind).length) && decide (0 < (jsTrim queue).length) &&
    parsed.toBool && !submitting

/-- The `submit` function of `CreateJobModal`: bail out with
"Payload must be valid JSON." when `parsed.ok` is false, otherwise post
`{kind: kind.trim(), queue: queue.trim(), priority: Number(priority) || 0,
payload: parsed.value}`. `priorityNum` is the result of `Number(priority)`. -/
def modalSubmit {α : Type} (parsed : Except String α) (kind queue : String)
    (priorityNum : Option Int) : SubmitAction α :=
  match parsed with
  | Except.error _ => SubmitAction.rejected "Payload must be valid JSON."
  | Except.ok v =>
      SubmitAction.posted ⟨jsTrim kind, jsTrim queue, numberOr0 priorityNum, v⟩

end Orchestrator

namespace Orchestrator

/-! ## Theorems: C5, C8, C9, C10 -/

/-- **C5.** The migrations create the indexes the spec requires: on `jobs` an
index with columns exactly `(queue, status, priority DESC, created_at ASC)`,
on `jobs` an index whose two leading columns are `(status, lease_until)`, and
on `webhook_outbox` a partial index on `(next_attempt_at)` restricted to
`WHERE delivered_at IS NULL`. -/
theorem migrationIndexes_cover_spec :
    (migrationIndexes.any fun i =>
      i.tableName == "jobs" &&
      i.cols == [⟨"queue", false⟩, ⟨"status", false⟩, ⟨"priority", true⟩,
        ⟨"created_at", false⟩]) = true ∧
    (migrationIndexes.any fun i =>
      i.tableName == "jobs" &&
      i.cols.take 2 == [⟨"status", false⟩, ⟨"lease_until", false⟩]) = true ∧
    (migrationIndexes.any fun i =>
      i.tableName == "webhook_outbox" &&
      i.cols == [⟨"next_attempt_at", false⟩] &&
      i.whereClause == some "delivered_at IS NULL") = true := by
  refine ⟨?_, ?_, ?_⟩ <;> decide

/-- **C8.** Every row inserted by submit starts with `status = 'pending'` and
`attempts = 0` (the schema defaults), its `queue` is `'default'` when the
submit does not specify one, and the specified queue otherwise. -/
theorem submitInsert_fresh_row_defaults :
    ∀ (α : Type) (kind : String) (q : Option String) (p : Option Int) (pl : α),
      (submitInsert kind q p pl).status = "pending" ∧
      (submitInsert kind q p pl).attempts = 0 ∧
      (submitInsert kind none p pl).queue = "default" ∧
      (∀ s : String, (submitInsert kind (some s) p pl).queue = s) := by
  intro α kind q p pl
  exact ⟨rfl, rfl, rfl, fun s => rfl⟩

/-- **C9.** The `http` helper returns normally exactly when the response is ok
(2xx); on a non-ok response it throws an `Error` whose message begins with the
numeric status code; on an ok response it returns the JSON-parsed body exactly
when the `content-type` header contains `application/json`, and the raw text
exactly otherwise. -/
theorem http_ok_error_contract (r : HttpResponse) :
    ((∃ v, http r = Except.ok v) ↔ responseOk r = true) ∧
    (responseOk r = false →
      ∃ rest, http r = Except.error (toString r.status ++ rest)) ∧
    (responseOk r = true →
      (http r = Except.ok (HttpResult.json r.bodyText) ↔
        strIncludes (r.contentType.getD "") "application/json" = true) ∧
      (http r = Except.ok (HttpResult.text r.bodyText) ↔
        strIncludes (r.contentType.getD "") "application/json" = false)) := by
  by_cases hok : responseOk r
  · refine ⟨⟨fun _ => hok, fun _ => ?_⟩, by simp [hok], fun _ => ?_⟩
    · by_cases hct : strIncludes (r.contentType.getD "") "application/json"
      · exact ⟨HttpResult.json r.bodyText, by simp [http, hok, hct]⟩
      · exact ⟨HttpResult.text r.bodyText, by simp [http, hok, hct]⟩
    · by_cases hct : strIncludes (r.contentType.getD "") "application/json"
      · simp [http, hok, hct]
      · simp [http, hok, hct]
  · refine ⟨?_, fun _ => ?_, fun h => absurd h hok⟩
    · simp [http, hok]
    · refine ⟨" " ++ r.statusText ++
        (if r.bodyText = "" then "" else ": " ++ r.bodyText), ?_⟩
      simp [http, hok, String.append_assoc]

/-- Witness for C9: a 404 response yields an error message starting with
`404`, and a 200 response with a JSON content-type yields the parsed JSON
body. -/
theorem http_ok_error_contract_witness :
    (∃ rest, http ⟨404, "Not Found", none, "missing"⟩ =
      Except.error (toString 404 ++ rest)) ∧
    (http ⟨200, "OK", some "application/json; charset=utf-8", "[]"⟩ =
      Except.ok (HttpResult.json "[]") ↔
      strIncludes "application/json; charset=utf-8" "application/json" = true) :=
  ⟨(http_ok_error_contract ⟨404, "Not Found", none, "missing"⟩).2.1 (by decide),
   ((http_ok_error_contract
      ⟨200, "OK", some "application/json; charset=utf-8", "[]"⟩).2.2 (by decide)).1⟩

/-- **C10.** `CreateJobModal.submit` posts only when the payload text parsed
as JSON (otherwise it sets the fixed error message and does not post); every
posted body carries the trimmed kind and queue, the parsed payload, and the
`Number(priority) || 0` coercion as priority (so a NaN priority becomes `0`);
and whenever the Create button is enabled (`canSubmit`), submitting posts a
body with non-empty kind and queue. -/
theorem modalSubmit_contract (α : Type) (parsed : Except String α)
    (kind queue : String) (pn : Option Int) (submitting : Bool) :
    (∀ e, parsed = Except.error e →
      modalSubmit parsed kind queue pn =
        SubmitAction.rejected "Payload must be valid JSON.") ∧
    (∀ job, modalSubmit parsed kind queue pn = SubmitAction.posted job →
      parsed = Except.ok job.payload ∧ job.kind = jsTrim kind ∧
      job.queue = jsTrim queue ∧ job.priority = numberOr0 pn) ∧
    numberOr0 none = 0 ∧
    (canSubmit parsed kind queue submitting = true →
      ∃ job, modalSubmit parsed kind queue pn = SubmitAction.posted job ∧
        job.kind ≠ "" ∧ job.queue ≠ "") := by
  refine ⟨fun e he => by simp [modalSubmit, he], fun job hj => ?_, rfl, fun hc => ?_⟩
  · cases parsed with
    | error e => simp [modalSubmit] at hj
    | ok v =>
        simp only [modalSubmit, SubmitAction.posted.injEq] at hj
        subst hj
        exact ⟨rfl, rfl, rfl, rfl⟩
  · have hkind : 0 < (jsTrim kind).length := by
      have := hc
      simp only [canSubmit, Bool.and_eq_true, decide_eq_true_eq] at this
      exact this.1.1.1
    have hqueue : 0 < (jsTrim queue).length := by
      simp only [canSubmit, Bool.and_eq_true, decide_eq_true_eq] at hc
      exact hc.1.1.2
    have hparsed : ∃ v, parsed = Except.ok v := by
      simp only [canSubmit, Bool.and_eq_true] at hc
      cases parsed with
      | error e => simp [Except.toBool] at hc
      | ok v => exact ⟨v, rfl⟩
    obtain ⟨v, hv⟩ := hparsed
    refine ⟨⟨jsTrim kind, jsTrim queue, numberOr0 pn, v⟩, by simp [modalSubmit, hv],
      ?_, ?_⟩
    · intro h
      have h2 : jsTrim kind = "" := h
      rw [h2] at hkind
      exact absurd hkind (by decide)
    · intro h
      have h2 : jsTrim queue = "" := h
      rw [h2] at hqueue
      exact absurd hqueue (by decide)

/-- Witness for C10: with a parsed payload, kind `" train "`, queue
`"default"` and a NaN priority, submit posts a job with non-empty kind and
queue. -/
theorem modalSubmit_contract_witness :
    ∃ job, modalSubmit (Except.ok 7) " train " "default" none =
      SubmitAction.posted job ∧ job.kind ≠ "" ∧ job.queue ≠ "" :=
  (modalSubmit_contract Nat (Except.ok 7) " train " "default" none false).2.2.2
    (by decide)

end Orchestrator

namespace Orchestrator

/-! ## Concurrency smoke test: the "Test Lock (Concurrent)" step

The PowerShell smoke test posts a job body declaring a `dataset_id`, then
immediately posts the identical body a second time. The step treats a
successful second submit as a test failure (`"ERROR: Should have failed with
409 Conflict, but got success"`, exit 1), passes only when the thrown
exception's HTTP status equals `409 Conflict`, and fails on any other status. -/

/-- Outcome of one `Invoke-RestMethod` POST to `/training/jobs` as the smoke
test observes it: either the call returned (a job id in the body) or it threw
with an HTTP status code. -/
inductive SubmitOutcome where
  | success (jobId : String)
  | httpError (statusCode : Nat)
deriving DecidableEq, Repr

/-- The pass condition of the "Test Lock (Concurrent)" step, applied to the
outcome of the second submit of the same body: success is an error
(`exit 1`), a thrown `409` is `SUCCESS: Lock enforced (409 Conflict)`, and
any other status is an error. -/
def lockConcurrentStepPasses : SubmitOutcome → Bool
  | .success _ => false
  | .httpError code => code == 409

/-- The spec's claimed outcome for the same second submit (§6, "Dataset lock
semantics at the API"): the submit succeeds and the duplicate body yields a
second distinct pending job. Stated from the spec's words, for comparison
with the smoke test. -/
def specClaimedSecondSubmitOutcome : SubmitOutcome :=
  SubmitOutcome.success "second-distinct-pending-job"

/-- **C1 counterexample.** The outcome the claim requires — the second submit
of a body whose `dataset_id` lock is held succeeds as a new pending job — is
exactly the outcome the repository's own concurrency smoke test rejects as
`"ERROR: Should have failed with 409 Conflict"`. -/
theorem lockConcurrent_claim_fails_smoke_test :
    lockConcurrentStepPasses specClaimedSecondSubmitOutcome = false := rfl

/-- **C1 (amended).** Per the repository's concurrency smoke test, submitting
a job body whose `dataset_id` lock is held by another live job is expected to
fail at submit time, and with status `409 Conflict` exactly: the test's lock
step passes on an outcome iff that outcome is a thrown 409, so the duplicate
submit does not yield a second pending job. -/
theorem lockConcurrentStepPasses_iff_409 :
    ∀ o : SubmitOutcome,
      lockConcurrentStepPasses o = true ↔ o = SubmitOutcome.httpError 409 := by
  intro o
  cases o with
  | success jobId => simp [lockConcurrentStepPasses]
  | httpError code => simp [lockConcurrentStepPasses, beq_iff_eq]

end Orchestrator

namespace Orchestrator

/-! ## Webhook outbox rows

The `webhook_outbox` schema gives a fresh row `status='pending'`,
`attempts=0`, `next_attempt_at=NOW()`, `delivered_at NULL`, `locked_by NULL`,
`locked_until NULL`, `last_error NULL`. The delivery pipeline that mutates
rows is not among the repository's source files, so its operations are
modelled from the spec (§4.7 enqueue/claim/deliver/reschedule, §4.6 step 3
sweeper rescue, §4.1 conditional-update store semantics: an update whose
condition fails changes nothing). Timestamps are abstract `Nat`s. -/

/-- A `webhook_outbox` row, with the columns the delivery pipeline reads and
writes. -/
structure OutboxRow where
  status : String
  attempts : Nat
  next_attempt_at : Nat
  delivered_at : Option Nat
  locked_by : Option String
  locked_until : Option Nat
  last_error : Option String
deriving DecidableEq, Repr

/-- A fresh outbox row, per the schema defaults and §4.7 Enqueue:
`status='pending'`, `attempts=0`, `next_attempt_at=now`, everything else
`NULL`. -/
def outboxEnqueue (now : Nat) : OutboxRow :=
  ⟨"pending", 0, now, none, none, none, none⟩

/-- `MaxOutboxAttempts` (§4.7, default 10). -/
def maxOutboxAttempts : Nat := 10

/-- A row is claimable (§3) iff `delivered_at IS NULL ∧ next_attempt_at ≤ now
∧ (locked_until IS NULL ∨ locked_until ≤ now)`. -/
def outboxClaimable (now : Nat) (r : OutboxRow) : Bool :=
  r.delivered_at.isNone && decide (r.next_attempt_at ≤ now) &&
    (match r.locked_until with
     | none => true
     | some t => decide (t ≤ now))

/-- Modelled from the spec: the operations of the missing outbox delivery
pipeline (§4.7) and the sweeper's outbox rescue (§4.6 step 3). -/
inductive OutboxOp where
  | claim (workerId : String) (now lockDur : Nat)
  | markDelivered (now : Nat)
  | fail4xx (errText : String)
  | reschedule (now backoff : Nat)
  | sweepUnlock (now : Nat)

/-- Modelled from the spec: apply one pipeline operation to a row, as the
conditional store updates of §4.1/§4.7 would: claiming a claimable row sets
its lock; `outbox_mark_delivered` (on a 2xx) sets `status=delivered` and
`delivered_at=now`; a non-retryable 4xx sets `status=failed` with
`last_error`; `outbox_reschedule` (5xx/network error/timeout) bumps
`attempts`, releases the lock and either re-times the row or, at
`MaxOutboxAttempts`, sets `status=failed`; the sweeper clears an expired
lock. Delivery updates apply only `WHERE delivered_at IS NULL`; an update
whose condition fails leaves the row unchanged. -/
def outboxApply (op : OutboxOp) (r : OutboxRow) : OutboxRow :=
  match op with
  | .claim w now dur =>
      if outboxClaimable now r then
        { r with locked_by := some w, locked_until := some (now + dur) }
      else r
  | .markDelivered now =>
      if r.delivered_at.isNone then
        { r with status := "delivered", delivered_at := some now }
      else r
  | .fail4xx e =>
      if r.delivered_at.isNone then
        { r with status := "failed", last_error := some e }
      else r
  | .reschedule now backoff =>
      if r.delivered_at.isNone then
        if maxOutboxAttempts ≤ r.attempts + 1 then
          { r with
            status := "failed"
            attempts := r.attempts + 1
            locked_by := none }
        else
          { r with
            attempts := r.attempts + 1
            next_attempt_at := now + backoff
            locked_by := none }
      else r
  | .sweepUnlock now =>
      if (match r.locked_until with
          | some t => decide (t < now)
          | none => false) then
        { r with locked_by := none, locked_until := none }
      else r

/-- The row an enqueued outbox entry has become after any sequence of
pipeline operations. -/
def outboxRun (ops : List OutboxOp) (now0 : Nat) : OutboxRow :=
  ops.foldl (fun r op => outboxApply op r) (outboxEnqueue now0)

/-- The C2 invariant on a single row: status lies in
{pending, delivered, failed} and `delivered_at ≠ NULL ⇔ status = delivered`. -/
def outboxRowInv (r : OutboxRow) : Prop :=
  (r.status = "pending" ∨ r.status = "delivered" ∨ r.status = "failed") ∧
    (r.delivered_at ≠ none ↔ r.status = "delivered")

/-- Each pipeline operation preserves the C2 invariant. -/
theorem outboxApply_inv (op : OutboxOp) (r : OutboxRow)
    (h : outboxRowInv r) : outboxRowInv (outboxApply op r) := by
  obtain ⟨hdom, hiff⟩ := h
  cases op with
  | claim w now dur =>
      by_cases hc : outboxClaimable now r = true
      · exact ⟨by simpa [outboxApply, hc] using hdom, by simpa [outboxApply, hc] using hiff⟩
      · simpa [outboxApply, hc] using ⟨hdom, hiff⟩
  | markDelivered now =>
      by_cases hd : r.delivered_at.isNone = true
      · refine ⟨by simp [outboxApply, hd], by simp [outboxApply, hd]⟩
      · simpa [outboxApply, hd] using ⟨hdom, hiff⟩
  | fail4xx e =>
      by_cases hd : r.delivered_at.isNone = true
      · have hnone : r.delivered_at = none := Option.isNone_iff_eq_none.mp hd
        refine ⟨by simp [outboxApply, hd], ?_⟩
        simp [outboxApply, hd, hnone]
      · simpa [outboxApply, hd] using ⟨hdom, hiff⟩
  | reschedule now backoff =>
      by_cases hd : r.delivered_at.isNone = true
      · have hnone : r.delivered_at = none := Option.isNone_iff_eq_none.mp hd
        by_cases hm : maxOutboxAttempts ≤ r.attempts + 1
        · refine ⟨by simp [outboxApply, hd, hm], by simp [outboxApply, hd, hm, hnone]⟩
        · refine ⟨by simpa [outboxApply, hd, hm] using hdom, ?_⟩
          simpa [outboxApply, hd, hm] using hiff
      · simpa [outboxApply, hd] using ⟨hdom, hiff⟩
  | sweepUnlock now =>
      by_cases hl : (match r.locked_until with
          | some t => decide (t < now)
          | none => false) = true
      · exact ⟨by simpa [outboxApply, hl] using hdom, by simpa [outboxApply, hl] using hiff⟩
      · simpa [outboxApply, hl] using ⟨hdom, hiff⟩

/-- **C2.** Every reachable `webhook_outbox` row — a freshly enqueued row
after any sequence of claim/deliver/fail/reschedule/sweep operations — has
`status ∈ {pending, delivered, failed}` and satisfies
`delivered_at ≠ NULL ⇔ status = delivered`; in particular no reachable row is
both `status = delivered` and `delivered_at IS NULL`. -/
theorem outbox_status_delivered_at_invariant :
    ∀ (ops : List OutboxOp) (now0 : Nat),
      ((outboxRun ops now0).status = "pending" ∨
        (outboxRun ops now0).status = "delivered" ∨
        (outboxRun ops now0).status = "failed") ∧
      ((outboxRun ops now0).delivered_at ≠ none ↔
        (outboxRun ops now0).status = "delivered") ∧
      ¬((outboxRun ops now0).status = "delivered" ∧
        (outboxRun ops now0).delivered_at = none) := by
  intro ops now0
  have key : ∀ (l : List OutboxOp) (r : OutboxRow), outboxRowInv r →
      outboxRowInv (l.foldl (fun r op => outboxApply op r) r) := by
    intro l
    induction l with
    | nil => exact fun r h => h
    | cons op rest ih =>
        intro r h
        exact ih (outboxApply op r) (outboxApply_inv op r h)
  have h0 : outboxRowInv (outboxEnqueue now0) := by
    constructor
    · exact Or.inl rfl
    · simp [outboxEnqueue]
  have h := key ops (outboxEnqueue now0) h0
  refine ⟨h.1, h.2, ?_⟩
  rintro ⟨hs, hd⟩
  exact absurd hd (by simpa [hs] using h.2.mpr hs)

end Orchestrator

namespace Orchestrator

/-! ## Dataset locks and mutual exclusion

`20241222000002_concurrency.sql` declares `dataset_locks (dataset_id TEXT
PRIMARY KEY, job_id, lease_until)`: the primary key makes `dataset_id` unique
across rows. The scheduler/lifecycle code that populates it is not among the
repository's source files, so its operations are modelled from the spec
(§4.3 acquire/release, §4.4 claim step 4, §4.5 lifecycle transitions, §4.6
sweeper). The lock table is an association list from `dataset_id` to the
holding `job_id` (the lease timestamp does not matter for exclusion, see
`expireLock`); the jobs table is a list of rows with unique ids. -/

/-- The slice of a `jobs` row that dataset exclusion depends on: id, status,
and the `payload.dataset_id` the orchestrator looks up (§ design notes). -/
structure SJob where
  jid : Nat
  jstatus : String
  dataset : Option String
deriving DecidableEq, Repr

/-- State of the exclusion model: the `jobs` table and the `dataset_locks`
table. -/
structure LockState where
  jobs : List SJob
  locks : List (String × Nat)
deriving DecidableEq, Repr

/-- Empty database. -/
def lockInit : LockState := ⟨[], []⟩

/-- The `dataset_locks` row for `d`, if any: association-list lookup on the
primary-key column. -/
def lockLookup (d : String) : List (String × Nat) → Option Nat
  | [] => none
  | (d', j) :: rest => if d' == d then some j else lockLookup d rest

/-- Modelled from the spec: `acquire_dataset_lock` (§4.3) grants only if no
row exists for the dataset or the existing row already belongs to the
requesting job; it returns the updated table on success and `none` on refusal
(non-blocking try-lock). The expired-row arm of §4.3 is modelled by explicit
`expireLock` steps. -/
def acquireLock (d : String) (j : Nat) (locks : List (String × Nat)) :
    Option (List (String × Nat)) :=
  match lockLookup d locks with
  | none => some ((d, j) :: locks)
  | some j' => if j' == j then some locks else none

/-- `release_dataset_lock` for everything job `j` holds (§4.5: released on
terminal status or cancel; §4.6: on lease expiry). -/
def releaseLocksOf (j : Nat) (locks : List (String × Nat)) :
    List (String × Nat) :=
  locks.filter (fun l => !(l.2 == j))

/-- Set the status of job `j` in the jobs table (a conditional `UPDATE` by
primary key). -/
def setStatus (j : Nat) (st : String) (jobs : List SJob) : List SJob :=
  jobs.map (fun job => if job.jid == j then { job with jstatus := st } else job)

/-- The `jobs` row with id `j`, if any. -/
def findJob (j : Nat) (jobs : List SJob) : Option SJob :=
  jobs.find? (fun job => job.jid == j)

/-- Modelled from the spec: the operations that touch job statuses and
dataset locks — submit (§4.5), the scheduler's claim (§4.4 step 4), worker
completion/failure, cancel, retry (§4.5), the sweeper's lease reclaim (§4.6
step 1) and dataset-lock expiry (§4.6 step 2). -/
inductive LockOp where
  | submit (j : Nat) (dataset : Option String)
  | claim (j : Nat)
  | complete (j : Nat)
  | fail (j : Nat)
  | cancel (j : Nat)
  | sweepLease (j : Nat)
  | retry (j : Nat)
  | expireLock (d : String)

/-- Move a running job `j` to terminal status `st` and release its dataset
locks, per §4.5 `complete`/`fail` and the running arm of `cancel`. -/
def terminalize (j : Nat) (st : String) (s : LockState) : LockState :=
  match findJob j s.jobs with
  | some job =>
      if job.jstatus == "running" then
        ⟨setStatus j st s.jobs, releaseLocksOf j s.locks⟩
      else s
  | none => s

/-- Modelled from the spec: apply one operation as the conditional
single-transaction store updates of §4.1 would (an update whose status
precondition fails changes nothing):
* `submit` inserts a fresh `pending` row (the `jobs` primary key rejects a
  duplicate id);
* `claim` moves a `pending` job to `running` only after acquiring its dataset
  lock, when its payload declares one (§4.4 step 4);
* `complete`/`fail` move a `running` job to `done`/`failed` and release its
  lock;
* `cancel` moves a `pending` job to `cancelled` immediately, and a `running`
  job to `cancelled` (worker ack path) releasing its lock;
* `sweepLease` returns a `running` job to `pending` and releases its lock
  (§4.6 step 1);
* `retry` moves a `failed`/`cancelled` job back to `pending`;
* `expireLock` drops the `dataset_locks` row for `d` once its lease has
  lapsed; §4.3 sizes a lock lease as the job lease plus a grace window and
  §4.6 expires job leases before dataset locks, so a lock expires only after
  its holder has stopped `running` — modelled as the guard on the holder's
  status. -/
def lockApply (op : LockOp) (s : LockState) : LockState :=
  match op with
  | .submit j d =>
      if s.jobs.any (fun job => job.jid == j) then s
      else ⟨s.jobs ++ [⟨j, "pending", d⟩], s.locks⟩
  | .claim j =>
      match findJob j s.jobs with
      | some job =>
          if job.jstatus == "pending" then
            match job.dataset with
            | none => ⟨setStatus j "running" s.jobs, s.locks⟩
            | some d =>
                match acquireLock d j s.locks with
                | some locks2 => ⟨setStatus j "running" s.jobs, locks2⟩
                | none => s
          else s
      | none => s
  | .complete j => terminalize j "done" s
  | .fail j => terminalize j "failed" s
  | .cancel j =>
      match findJob j s.jobs with
      | some job =>
          if job.jstatus == "pending" then ⟨setStatus j "cancelled" s.jobs, s.locks⟩
          else terminalize j "cancelled" s
      | none => s
  | .sweepLease j =>
      match findJob j s.jobs with
      | some job =>
          if job.jstatus == "running" then
            ⟨setStatus j "pending" s.jobs, releaseLocksOf j s.locks⟩
          else s
      | none => s
  | .retry j =>
      match findJob j s.jobs with
      | some job =>
          if job.jstatus == "failed" || job.jstatus == "cancelled" then
            ⟨setStatus j "pending" s.jobs, s.locks⟩
          else s
      | none => s
  | .expireLock d =>
      match lockLookup d s.locks with
      | some j =>
          match findJob j s.jobs with
          | some job =>
              if job.jstatus == "running" then s
              else ⟨s.jobs, s.locks.filter (fun l => !(l.1 == d))⟩
          | none => ⟨s.jobs, s.locks.filter (fun l => !(l.1 == d))⟩
      | none => s

/-- The state after a sequence of operations from the empty database. -/
def lockRun (ops : List LockOp) : LockState :=
  ops.foldl (fun s op => lockApply op s) lockInit

/-- How many `running` jobs reference dataset `d` in their payload. -/
def runningWithDataset (d : String) (s : LockState) : Nat :=
  (s.jobs.filter (fun job => job.jstatus == "running" && job.dataset == some d)).length

/-- The inductive invariant for C3: job ids are unique, `dataset_locks` has
at most one row per `dataset_id` (the primary key), and every `running` job
that references a dataset holds that dataset's lock row. -/
def LockInv (s : LockState) : Prop :=
  (s.jobs.map SJob.jid).Nodup ∧
  (s.locks.map Prod.fst).Nodup ∧
  ∀ job ∈ s.jobs, job.jstatus = "running" →
    ∀ d, job.dataset = some d → lockLookup d s.locks = some job.jid

/-! ### Lemmas about the lock table and job table primitives -/

theorem lockLookup_none_not_mem {d : String} {locks : List (String × Nat)}
    (h : lockLookup d locks = none) : d ∉ locks.map Prod.fst := by
  induction locks with
  | nil => simp
  | cons hd tl ih =>
      obtain ⟨d0, j0⟩ := hd
      intro hmem
      by_cases he : d0 = d
      · simp [lockLookup, he] at h
      · simp only [lockLookup, beq_iff_eq, he, if_false] at h
        simp only [List.map_cons, List.mem_cons] at hmem
        cases hmem with
        | inl h1 => exact he h1.symm
        | inr h2 => exact ih h h2

theorem lockLookup_cons_ne {d d0 : String} {j0 : Nat}
    {locks : List (String × Nat)} (h : d0 ≠ d) :
    lockLookup d ((d0, j0) :: locks) = lockLookup d locks := by
  simp [lockLookup, h]

theorem lockLookup_releaseLocksOf {d : String} {v j : Nat}
    {locks : List (String × Nat)} (h : lockLookup d locks = some v)
    (hv : v ≠ j) : lockLookup d (releaseLocksOf j locks) = some v := by
  induction locks with
  | nil => simp [lockLookup] at h
  | cons hd tl ih =>
      obtain ⟨d0, j0⟩ := hd
      by_cases he : d0 = d
      · simp only [lockLookup, beq_iff_eq, he, if_true, Option.some.injEq] at h
        subst h
        have hpj : (!(j0 == j)) = true := by simp [hv]
        simp [releaseLocksOf, List.filter_cons, hpj, lockLookup, he]
      · simp only [lockLookup, beq_iff_eq, he, if_false] at h
        have hrec := ih h
        by_cases hj : j0 = j
        · simpa [releaseLocksOf, List.filter_cons, hj] using hrec
        · simpa [releaseLocksOf, List.filter_cons, hj, lockLookup, he] using hrec

theorem lockLookup_filter_key {d d' : String} {locks : List (String × Nat)}
    (h : d' ≠ d) :
    lockLookup d' (locks.filter (fun l => !(l.1 == d))) = lockLookup d' locks := by
  induction locks with
  | nil => simp
  | cons hd tl ih =>
      obtain ⟨d0, j0⟩ := hd
      by_cases he : d0 = d
      · have hne : d ≠ d' := fun hc => h hc.symm
        simpa [List.filter_cons, he, lockLookup, hne] using ih
      · by_cases he2 : d0 = d'
        · simp [List.filter_cons, lockLookup, he2, h]
        · simpa [List.filter_cons, he, lockLookup, he2] using ih

theorem acquireLock_self {d : String} {j : Nat}
    {locks locks2 : List (String × Nat)}
    (h : acquireLock d j locks = some locks2) : lockLookup d locks2 = some j := by
  unfold acquireLock at h
  cases hl : lockLookup d locks with
  | none =>
      rw [hl] at h
      simp only [Option.some.injEq] at h
      subst h
      simp [lockLookup]
  | some j' =>
      rw [hl] at h
      by_cases hj : j' = j
      · simp only [hj, beq_self_eq_true, if_true, Option.some.injEq] at h
        subst h
        rw [hl, hj]
      · simp [hj] at h

theorem acquireLock_other {d d' : String} {j : Nat}
    {locks locks2 : List (String × Nat)}
    (h : acquireLock d j locks = some locks2) (hne : d' ≠ d) :
    lockLookup d' locks2 = lockLookup d' locks := by
  unfold acquireLock at h
  cases hl : lockLookup d locks with
  | none =>
      rw [hl] at h
      simp only [Option.some.injEq] at h
      subst h
      exact lockLookup_cons_ne (fun hc => hne hc.symm)
  | some j' =>
      rw [hl] at h
      by_cases hj : j' = j
      · simp only [hj, beq_self_eq_true, if_true, Option.some.injEq] at h
        subst h
        rfl
      · simp [hj] at h

theorem acquireLock_keys_nodup {d : String} {j : Nat}
    {locks locks2 : List (String × Nat)}
    (hn : (locks.map Prod.fst).Nodup)
    (h : acquireLock d j locks = some locks2) : (locks2.map Prod.fst).Nodup := by
  unfold acquireLock at h
  cases hl : lockLookup d locks with
  | none =>
      rw [hl] at h
      simp only [Option.some.injEq] at h
      subst h
      exact List.nodup_cons.mpr ⟨lockLookup_none_not_mem hl, hn⟩
  | some j' =>
      rw [hl] at h
      by_cases hj : j' = j
      · simp only [hj, beq_self_eq_true, if_true, Option.some.injEq] at h
        subst h
        exact hn
      · simp [hj] at h

theorem filter_keys_nodup {locks : List (String × Nat)}
    (p : String × Nat → Bool) (hn : (locks.map Prod.fst).Nodup) :
    ((locks.filter p).map Prod.fst).Nodup :=
  hn.sublist ((List.filter_sublist locks).map Prod.fst)

theorem setStatus_map_jid (j : Nat) (st : String) (jobs : List SJob) :
    (setStatus j st jobs).map SJob.jid = jobs.map SJob.jid := by
  induction jobs with
  | nil => rfl
  | cons hd tl ih =>
      by_cases he : hd.jid = j
      · simpa [setStatus, he] using ih
      · simpa [setStatus, he] using ih

theorem mem_setStatus {job2 : SJob} {j : Nat} {st : String} {jobs : List SJob}
    (h : job2 ∈ setStatus j st jobs) :
    ∃ job ∈ jobs,
      (job.jid = j ∧ job2 = { job with jstatus := st }) ∨
      (job.jid ≠ j ∧ job2 = job) := by
  unfold setStatus at h
  obtain ⟨job, hmem, heq⟩ := List.mem_map.mp h
  refine ⟨job, hmem, ?_⟩
  by_cases he : job.jid = j
  · exact Or.inl ⟨he, by simpa [he] using heq.symm⟩
  · exact Or.inr ⟨he, by simpa [he] using heq.symm⟩

theorem findJob_some {j : Nat} {job : SJob} {jobs : List SJob}
    (h : findJob j jobs = some job) : job ∈ jobs ∧ job.jid = j := by
  refine ⟨List.mem_of_find?_eq_some h, ?_⟩
  have := List.find?_some h
  simpa using this

theorem findJob_none {j : Nat} {jobs : List SJob}
    (h : findJob j jobs = none) : ∀ job ∈ jobs, job.jid ≠ j := by
  intro job hmem
  have := List.find?_eq_none.mp h job hmem
  simpa using this

theorem jid_inj {jobs : List SJob} (hn : (jobs.map SJob.jid).Nodup)
    {job1 job2 : SJob} (h1 : job1 ∈ jobs) (h2 : job2 ∈ jobs)
    (he : job1.jid = job2.jid) : job1 = job2 :=
  List.inj_on_of_nodup_map hn h1 h2 he

/-! ### Preservation of the C3 invariant -/

/-- Setting a job to a non-`running` status while leaving locks alone
preserves the invariant. -/
theorem setStatus_nonrunning_inv {j : Nat} {st : String} {s : LockState}
    (hst : st ≠ "running") (hinv : LockInv s) :
    LockInv ⟨setStatus j st s.jobs, s.locks⟩ := by
  obtain ⟨hjn, hln, hrun⟩ := hinv
  refine ⟨by rw [setStatus_map_jid]; exact hjn, hln, ?_⟩
  intro job2 hmem hst2 d hds
  obtain ⟨job0, hmem0, hcase⟩ := mem_setStatus hmem
  cases hcase with
  | inl hrepl =>
      rw [hrepl.2] at hst2
      exact absurd hst2 hst
  | inr hkeep =>
      rw [hkeep.2] at hst2 hds ⊢
      exact hrun job0 hmem0 hst2 d hds

/-- Setting a job to a non-`running` status and releasing its locks
preserves the invariant. -/
theorem setStatus_release_inv {j : Nat} {st : String} {s : LockState}
    (hst : st ≠ "running") (hinv : LockInv s) :
    LockInv ⟨setStatus j st s.jobs, releaseLocksOf j s.locks⟩ := by
  obtain ⟨hjn, hln, hrun⟩ := hinv
  refine ⟨by rw [setStatus_map_jid]; exact hjn,
    filter_keys_nodup _ hln, ?_⟩
  intro job2 hmem hst2 d hds
  obtain ⟨job0, hmem0, hcase⟩ := mem_setStatus hmem
  cases hcase with
  | inl hrepl =>
      rw [hrepl.2] at hst2
      exact absurd hst2 hst
  | inr hkeep =>
      rw [hkeep.2] at hst2 hds ⊢
      exact lockLookup_releaseLocksOf (hrun job0 hmem0 hst2 d hds) hkeep.1

/-- `terminalize` preserves the invariant for any non-`running` target
status. -/
theorem terminalize_inv {j : Nat} {st : String} {s : LockState}
    (hst : st ≠ "running") (hinv : LockInv s) : LockInv (terminalize j st s) := by
  unfold terminalize
  cases hf : findJob j s.jobs with
  | none => exact hinv
  | some job =>
      by_cases hr : (job.jstatus == "running") = true
      · simpa [hr] using setStatus_release_inv hst hinv
      · simpa [hr] using hinv

/-- Every modelled operation preserves the C3 invariant. -/
theorem lockApply_inv (op : LockOp) (s : LockState) (hinv : LockInv s) :
    LockInv (lockApply op s) := by
  obtain ⟨hjn, hln, hrun⟩ := hinv
  cases op with
  | submit j d =>
      by_cases hany : (s.jobs.any (fun job => job.jid == j)) = true
      · simpa [lockApply, hany] using ⟨hjn, hln, hrun⟩
      · have hnotin : ∀ job ∈ s.jobs, job.jid ≠ j := by
          intro job hm hc
          exact hany (List.any_eq_true.mpr ⟨job, hm, by simp [hc]⟩)
        have hgoal : LockInv ⟨s.jobs ++ [⟨j, "pending", d⟩], s.locks⟩ := by
          refine ⟨?_, hln, ?_⟩
          · rw [List.map_append]
            refine hjn.append (by simp) ?_
            simp only [List.map_cons, List.map_nil, List.disjoint_singleton]
            intro hc
            obtain ⟨job, hm, hjid⟩ := List.mem_map.mp hc
            exact hnotin job hm hjid
          · intro job2 hmem hst2 d' hds
            cases List.mem_append.mp hmem with
            | inl hl => exact hrun job2 hl hst2 d' hds
            | inr hr =>
                have : job2 = ⟨j, "pending", d⟩ := by simpa using hr
                rw [this] at hst2
                exact absurd hst2 (by simp)
        simpa [lockApply, hany] using hgoal
  | claim j =>
      cases hf : findJob j s.jobs with
      | none => simpa [lockApply, hf] using ⟨hjn, hln, hrun⟩
      | some job =>
          obtain ⟨hjmem, hjid⟩ := findJob_some hf
          by_cases hp : (job.jstatus == "pending") = true
          · cases hd : job.dataset with
            | none =>
                have hgoal : LockInv ⟨setStatus j "running" s.jobs, s.locks⟩ := by
                  refine ⟨by rw [setStatus_map_jid]; exact hjn, hln, ?_⟩
                  intro job2 hmem hst2 d' hds
                  obtain ⟨job0, hmem0, hcase⟩ := mem_setStatus hmem
                  cases hcase with
                  | inl hrepl =>
                      have hj0 : job0 = job :=
                        jid_inj hjn hmem0 hjmem (by rw [hrepl.1, hjid])
                      rw [hrepl.2] at hds
                      have : job0.dataset = some d' := hds
                      rw [hj0, hd] at this
                      exact absurd this (by simp)
                  | inr hkeep =>
                      rw [hkeep.2] at hst2 hds ⊢
                      exact hrun job0 hmem0 hst2 d' hds
                simpa [lockApply, hf, hp, hd] using hgoal
            | some d =>
                cases ha : acquireLock d j s.locks with
                | none => simpa [lockApply, hf, hp, hd, ha] using ⟨hjn, hln, hrun⟩
                | some locks2 =>
                    have hgoal : LockInv ⟨setStatus j "running" s.jobs, locks2⟩ := by
                      refine ⟨by rw [setStatus_map_jid]; exact hjn,
                        acquireLock_keys_nodup hln ha, ?_⟩
                      intro job2 hmem hst2 d' hds
                      obtain ⟨job0, hmem0, hcase⟩ := mem_setStatus hmem
                      cases hcase with
                      | inl hrepl =>
                          have hj0 : job0 = job :=
                            jid_inj hjn hmem0 hjmem (by rw [hrepl.1, hjid])
                          rw [hrepl.2] at hds ⊢
                          have hds0 : job0.dataset = some d' := hds
                          rw [hj0, hd] at hds0
                          have hdd : d' = d := by
                            simpa using hds0.symm
                          subst hdd
                          have : ({ job0 with jstatus := "running" } : SJob).jid = j := by
                            simp [hrepl.1]
                          rw [this]
                          exact acquireLock_self ha
                      | inr hkeep =>
                          rw [hkeep.2] at hst2 hds ⊢
                          have hlook := hrun job0 hmem0 hst2 d' hds
                          by_cases hdd : d' = d
                          · subst hdd
                            unfold acquireLock at ha
                            rw [hlook] at ha
                            simp [hkeep.1] at ha
                          · rw [acquireLock_other ha hdd]
                            exact hlook
                    simpa [lockApply, hf, hp, hd, ha] using hgoal
          · simpa [lockApply, hf, hp] using ⟨hjn, hln, hrun⟩
  | complete j =>
      have : lockApply (LockOp.complete j) s = terminalize j "done" s := rfl
      rw [this]
      exact terminalize_inv (by decide) ⟨hjn, hln, hrun⟩
  | fail j =>
      have : lockApply (LockOp.fail j) s = terminalize j "failed" s := rfl
      rw [this]
      exact terminalize_inv (by decide) ⟨hjn, hln, hrun⟩
  | cancel j =>
      cases hf : findJob j s.jobs with
      | none => simpa [lockApply, hf] using ⟨hjn, hln, hrun⟩
      | some job =>
          by_cases hp : (job.jstatus == "pending") = true
          · simpa [lockApply, hf, hp] using
              setStatus_nonrunning_inv (s := s) (j := j) (by decide) ⟨hjn, hln, hrun⟩
          · simpa [lockApply, hf, hp] using
              terminalize_inv (j := j) (s := s) (by decide) ⟨hjn, hln, hrun⟩
  | sweepLease j =>
      cases hf : findJob j s.jobs with
      | none => simpa [lockApply, hf] using ⟨hjn, hln, hrun⟩
      | some job =>
          by_cases hr : (job.jstatus == "running") = true
          · simpa [lockApply, hf, hr] using
              setStatus_release_inv (s := s) (j := j) (by decide) ⟨hjn, hln, hrun⟩
          · simpa [lockApply, hf, hr] using ⟨hjn, hln, hrun⟩
  | retry j =>
      cases hf : findJob j s.jobs with
      | none => simpa [lockApply, hf] using ⟨hjn, hln, hrun⟩
      | some job =>
          by_cases hft : (job.jstatus == "failed" || job.jstatus == "cancelled") = true
          · simpa [lockApply, hf, hft] using
              setStatus_nonrunning_inv (s := s) (j := j) (by decide) ⟨hjn, hln, hrun⟩
          · simpa [lockApply, hf, hft] using ⟨hjn, hln, hrun⟩
  | expireLock d =>
      cases hl : lockLookup d s.locks with
      | none => simpa [lockApply, hl] using ⟨hjn, hln, hrun⟩
      | some j =>
          have hkey : ∀ (hno : ∀ job2 ∈ s.jobs, job2.jstatus = "running" →
                job2.dataset ≠ some d),
              LockInv ⟨s.jobs, s.locks.filter (fun l => !(l.1 == d))⟩ := by
            intro hno
            refine ⟨hjn, filter_keys_nodup _ hln, ?_⟩
            intro job2 hmem hst2 d' hds
            have hdd : d' ≠ d := by
              intro hc
              exact hno job2 hmem hst2 (hc ▸ hds)
            rw [lockLookup_filter_key hdd]
            exact hrun job2 hmem hst2 d' hds
          cases hfj : findJob j s.jobs with
          | none =>
              have hno : ∀ job2 ∈ s.jobs, job2.jstatus = "running" →
                  job2.dataset ≠ some d := by
                intro job2 hmem hst2 hc
                have := hrun job2 hmem hst2 d hc
                rw [hl] at this
                have hj2 : job2.jid = j := by simpa using this.symm
                exact findJob_none hfj job2 hmem hj2
              simpa [lockApply, hl, hfj] using hkey hno
          | some job =>
              by_cases hr : (job.jstatus == "running") = true
              · simpa [lockApply, hl, hfj, hr] using ⟨hjn, hln, hrun⟩
              · have hno : ∀ job2 ∈ s.jobs, job2.jstatus = "running" →
                    job2.dataset ≠ some d := by
                  intro job2 hmem hst2 hc
                  have := hrun job2 hmem hst2 d hc
                  rw [hl] at this
                  have hj2 : job2.jid = j := by simpa using this.symm
                  obtain ⟨hjm, hjj⟩ := findJob_some hfj
                  have : job2 = job := jid_inj hjn hmem hjm (by rw [hj2, hjj])
                  rw [this] at hst2
                  exact hr (by simp [hst2])
                simpa [lockApply, hl, hfj, hr] using hkey hno

/-- A state satisfying the invariant has at most one `running` job per
dataset: two distinct running holders of `d` would both own the unique
`dataset_locks` row for `d`. -/
theorem runningWithDataset_le_one_of_inv (d : String) (s : LockState)
    (hinv : LockInv s) : runningWithDataset d s ≤ 1 := by
  obtain ⟨hjn, _, hrun⟩ := hinv
  unfold runningWithDataset
  by_contra hgt
  push_neg at hgt
  set p : SJob → Bool :=
    fun job => job.jstatus == "running" && job.dataset == some d with hp
  have hnodup : ((s.jobs.filter p).map SJob.jid).Nodup :=
    hjn.sublist ((List.filter_sublist s.jobs).map SJob.jid)
  obtain ⟨a, b, t, hlt⟩ : ∃ a b t, s.jobs.filter p = a :: b :: t := by
    cases hfl : s.jobs.filter p with
    | nil => rw [hfl] at hgt; simp at hgt
    | cons a l1 =>
        cases l1 with
        | nil => rw [hfl] at hgt; simp at hgt
        | cons b t => exact ⟨a, b, t, rfl⟩
  have hamem : a ∈ s.jobs.filter p := by rw [hlt]; simp
  have hbmem : b ∈ s.jobs.filter p := by rw [hlt]; simp
  have hane : a.jid ≠ b.jid := by
    rw [hlt] at hnodup
    simp only [List.map_cons, List.nodup_cons, List.mem_cons] at hnodup
    exact fun hc => hnodup.1 (Or.inl hc)
  obtain ⟨hamem2, hpa⟩ := List.mem_filter.mp hamem
  obtain ⟨hbmem2, hpb⟩ := List.mem_filter.mp hbmem
  rw [hp] at hpa hpb
  simp only [Bool.and_eq_true, beq_iff_eq] at hpa hpb
  have hla := hrun a hamem2 hpa.1 d hpa.2
  have hlb := hrun b hbmem2 hpb.1 d hpb.2
  rw [hla] at hlb
  exact hane (by simpa using hlb)

/-- **C3.** After any sequence of submit/claim/complete/fail/cancel/sweep/
retry/lock-expiry operations from the empty database, the `dataset_locks`
table has at most one row per `dataset_id` (its primary key), and for every
dataset `d` at most one `running` job references `d` in its payload. -/
theorem dataset_lock_exclusion :
    ∀ (ops : List LockOp) (d : String),
      ((lockRun ops).locks.map Prod.fst).Nodup ∧
      runningWithDataset d (lockRun ops) ≤ 1 := by
  intro ops d
  have hrun : LockInv (lockRun ops) := by
    have key : ∀ (l : List LockOp) (s : LockState), LockInv s →
        LockInv (l.foldl (fun s op => lockApply op s) s) := by
      intro l
      induction l with
      | nil => exact fun s h => h
      | cons op rest ih =>
          intro s h
          exact ih (lockApply op s) (lockApply_inv op s h)
    have h0 : LockInv lockInit := by
      refine ⟨by simp [lockInit], by simp [lockInit], ?_⟩
      intro job hmem
      simp [lockInit] at hmem
    exact key ops lockInit h0
  exact ⟨hrun.2.1, runningWithDataset_le_one_of_inv d _ hrun⟩

end Orchestrator
